import Mathlib

/-!
Shallow embedding of the protohackers speed-daemon server
(src/server/src/speed.rs together with the Packet derive macro in
src/server_macros/src/lib.rs).

Bytes are modelled as natural numbers; a TCP read stream is the list of
bytes the peer sends before closing its side.  The derive macro generates,
for each struct field in declaration order:
  integer fields: read_exact of the byte width, big-endian decode;
  Vec fields: one count byte, then count * width bytes, chunked big-endian;
  String fields: one length byte, then that many payload bytes (the UTF-8
    validation of the payload is not modelled; it can only add further
    failure cases and none of the properties below depends on it).
read_exact that hits end of stream consumes the remaining bytes and then
fails, so a failed field read leaves the stream empty.
-/

/-- read_exact: take n bytes from the stream, or fail if fewer remain. -/
def readN (n : Nat) (s : List Nat) : Option (List Nat × List Nat) :=
  if n ≤ s.length then some (s.take n, s.drop n) else none

/-- Big-endian value of a byte list (from_be_bytes). -/
def beVal (bs : List Nat) : Nat :=
  bs.foldl (fun acc b => acc * 256 + b) 0

/-- One k-byte big-endian integer field, as the macro generates. -/
def readInt (k : Nat) (s : List Nat) : Option (Nat × List Nat) :=
  match readN k s with
  | some (bs, r) => some (beVal bs, r)
  | none => none

/-- A Vec field of k-byte integers, as the macro generates: one count byte,
then count * k bytes chunked into big-endian integers. -/
def readVec (k : Nat) (s : List Nat) : Option (List Nat × List Nat) :=
  match readInt 1 s with
  | some (len, r) =>
    match readN (len * k) r with
    | some (bs, r2) =>
      some ((List.range len).map (fun i => beVal ((bs.drop (i * k)).take k)), r2)
    | none => none
  | none => none

/-- A String field, as the macro generates: one length byte then that many
payload bytes (kept as raw bytes here). -/
def readStr (s : List Nat) : Option (List Nat × List Nat) :=
  match readInt 1 s with
  | some (len, r) => readN len r
  | none => none

/-- Frame body of opcode 0x20 (src/server/src/speed.rs, PlatePacket). -/
structure PlatePacket where
  plate : List Nat
  timestamp : Nat
deriving DecidableEq

/-- Frame body of opcode 0x80 (src/server/src/speed.rs, Camera). -/
structure Camera where
  road : Nat
  mile : Nat
  limit : Nat
deriving DecidableEq

/-- Frame body of opcode 0x81 (src/server/src/speed.rs, Dispatcher): the
struct declares an explicit numroads field and then a Vec field. -/
structure Dispatcher where
  numroads : Nat
  roads : List Nat
deriving DecidableEq

/-- Frame body of opcode 0x40 (src/server/src/speed.rs, WantHeartBeatPacket). -/
structure WantHeartBeatPacket where
  interval : Nat
deriving DecidableEq

/-- Macro-generated deserializer for PlatePacket: String field, then u32. -/
def PlatePacket.deserialize (s : List Nat) : Option (PlatePacket × List Nat) :=
  match readStr s with
  | some (p, r) =>
    match readInt 4 r with
    | some (ts, r2) => some (⟨p, ts⟩, r2)
    | none => none
  | none => none

/-- Macro-generated deserializer for Camera: three u16 fields. -/
def Camera.deserialize (s : List Nat) : Option (Camera × List Nat) :=
  match readInt 2 s with
  | some (road, r1) =>
    match readInt 2 r1 with
    | some (mile, r2) =>
      match readInt 2 r2 with
      | some (lim, r3) => some (⟨road, mile, lim⟩, r3)
      | none => none
    | none => none
  | none => none

/-- Macro-generated deserializer for Dispatcher: a u8 field for numroads,
then a Vec(u16) field which carries its own separate count byte. -/
def Dispatcher.deserialize (s : List Nat) : Option (Dispatcher × List Nat) :=
  match readInt 1 s with
  | some (n, r1) =>
    match readVec 2 r1 with
    | some (roads, r2) => some (⟨n, roads⟩, r2)
    | none => none
  | none => none

/-- Macro-generated deserializer for WantHeartBeatPacket: one u32 field. -/
def WantHeartBeatPacket.deserialize (s : List Nat) :
    Option (WantHeartBeatPacket × List Nat) :=
  match readInt 4 s with
  | some (i, r) => some (⟨i⟩, r)
  | none => none

theorem readN_length {n : Nat} {s v r : List Nat} (h : readN n s = some (v, r)) :
    r.length ≤ s.length := by
  unfold readN at h
  by_cases hn : n ≤ s.length
  · simp [hn] at h
    obtain ⟨h1, h2⟩ := h
    subst h2
    simp
  · simp [hn] at h

theorem readInt_length {k : Nat} {s : List Nat} {v : Nat} {r : List Nat}
    (h : readInt k s = some (v, r)) : r.length ≤ s.length := by
  unfold readInt at h
  cases hN : readN k s with
  | none => rw [hN] at h; exact absurd h (by simp)
  | some p =>
    rw [hN] at h
    obtain ⟨bs, r0⟩ := p
    simp at h
    obtain ⟨h1, h2⟩ := h
    subst h2
    exact readN_length hN

theorem readVec_length {k : Nat} {s : List Nat} {v : List Nat} {r : List Nat}
    (h : readVec k s = some (v, r)) : r.length ≤ s.length := by
  unfold readVec at h
  cases h1 : readInt 1 s with
  | none => rw [h1] at h; exact absurd h (by simp)
  | some p1 =>
    rw [h1] at h
    obtain ⟨len, r1⟩ := p1
    cases h2 : readN (len * k) r1 with
    | none => simp [h2] at h
    | some p2 =>
      obtain ⟨bs, r2⟩ := p2
      simp [h2] at h
      obtain ⟨hv, hr⟩ := h
      subst hr
      exact le_trans (readN_length h2) (readInt_length h1)

theorem readStr_length {s v r : List Nat} (h : readStr s = some (v, r)) :
    r.length ≤ s.length := by
  unfold readStr at h
  cases h1 : readInt 1 s with
  | none => rw [h1] at h; exact absurd h (by simp)
  | some p1 =>
    rw [h1] at h
    obtain ⟨len, r1⟩ := p1
    exact le_trans (readN_length h) (readInt_length h1)

theorem platePacket_deserialize_length {s : List Nat} {p : PlatePacket}
    {r : List Nat} (h : PlatePacket.deserialize s = some (p, r)) :
    r.length ≤ s.length := by
  unfold PlatePacket.deserialize at h
  cases h1 : readStr s with
  | none => rw [h1] at h; exact absurd h (by simp)
  | some q1 =>
    rw [h1] at h
    obtain ⟨pl, r1⟩ := q1
    cases h2 : readInt 4 r1 with
    | none => simp [h2] at h
    | some q2 =>
      obtain ⟨ts, r2⟩ := q2
      simp [h2] at h
      obtain ⟨hp, hr⟩ := h
      subst hr
      exact le_trans (readInt_length h2) (readStr_length h1)

theorem camera_deserialize_length {s : List Nat} {c : Camera} {r : List Nat}
    (h : Camera.deserialize s = some (c, r)) : r.length ≤ s.length := by
  unfold Camera.deserialize at h
  cases h1 : readInt 2 s with
  | none => rw [h1] at h; exact absurd h (by simp)
  | some q1 =>
    rw [h1] at h
    obtain ⟨road, r1⟩ := q1
    cases h2 : readInt 2 r1 with
    | none => simp [h2] at h
    | some q2 =>
      obtain ⟨mile, r2⟩ := q2
      simp [h2] at h
      cases h3 : readInt 2 r2 with
      | none => simp [h3] at h
      | some q3 =>
        obtain ⟨lim, r3⟩ := q3
        simp [h3] at h
        obtain ⟨hc, hr⟩ := h
        subst hr
        exact le_trans (readInt_length h3)
          (le_trans (readInt_length h2) (readInt_length h1))

theorem dispatcher_deserialize_length {s : List Nat} {d : Dispatcher}
    {r : List Nat} (h : Dispatcher.deserialize s = some (d, r)) :
    r.length ≤ s.length := by
  unfold Dispatcher.deserialize at h
  cases h1 : readInt 1 s with
  | none => rw [h1] at h; exact absurd h (by simp)
  | some q1 =>
    rw [h1] at h
    obtain ⟨n, r1⟩ := q1
    cases h2 : readVec 2 r1 with
    | none => simp [h2] at h
    | some q2 =>
      obtain ⟨roads, r2⟩ := q2
      simp [h2] at h
      obtain ⟨hd, hr⟩ := h
      subst hr
      exact le_trans (readVec_length h2) (readInt_length h1)

theorem wantHeartBeat_deserialize_length {s : List Nat}
    {w : WantHeartBeatPacket} {r : List Nat}
    (h : WantHeartBeatPacket.deserialize s = some (w, r)) :
    r.length ≤ s.length := by
  unfold WantHeartBeatPacket.deserialize at h
  cases h1 : readInt 4 s with
  | none => rw [h1] at h; exact absurd h (by simp)
  | some q1 =>
    rw [h1] at h
    obtain ⟨i, r1⟩ := q1
    simp at h
    obtain ⟨hw, hr⟩ := h
    subst hr
    exact readInt_length h1

/-!
The connection read loop (handle_client in src/server/src/speed.rs).

The loop reads one opcode byte; on a read failure it sends
ClientDisconnected and breaks.  A recognized opcode deserializes the frame
body and forwards the typed event on success; on a deserialize failure it
only logs and goes round the loop again (read_exact has consumed the
remaining bytes, so the next opcode read fails).  An unrecognized opcode
logs and breaks the loop without sending anything.
-/

/-- The MessageType enum sent to run_server, with the socket write half and
the address tag abstracted away (events are tagged when fed to run_server). -/
inductive MessageType where
  | clientConnected
  | clientDisconnected
  | plate (p : PlatePacket)
  | wantHeartBeat (p : WantHeartBeatPacket)
  | iAmCamera (c : Camera)
  | iAmDispatcher (d : Dispatcher)
deriving DecidableEq

/-- Why the read loop of handle_client stopped: the opcode read failed
(end of stream), or an unrecognized opcode byte was read. -/
inductive ExitReason where
  | eof
  | unknownOpcode (b : Nat)
deriving DecidableEq

/-- The loop body of handle_client: events sent on the channel, in order,
paired with the reason the loop stopped. -/
def clientLoop (s : List Nat) : List MessageType × ExitReason :=
  match s with
  | [] => ([MessageType.clientDisconnected], ExitReason.eof)
  | b :: t =>
    if b = 0x20 then
      match h : PlatePacket.deserialize t with
      | some (p, r) =>
        let res := clientLoop r
        (MessageType.plate p :: res.1, res.2)
      | none => clientLoop []
    else if b = 0x80 then
      match h : Camera.deserialize t with
      | some (c, r) =>
        let res := clientLoop r
        (MessageType.iAmCamera c :: res.1, res.2)
      | none => clientLoop []
    else if b = 0x81 then
      match h : Dispatcher.deserialize t with
      | some (d, r) =>
        let res := clientLoop r
        (MessageType.iAmDispatcher d :: res.1, res.2)
      | none => clientLoop []
    else if b = 0x40 then
      match h : WantHeartBeatPacket.deserialize t with
      | some (w, r) =>
        let res := clientLoop r
        (MessageType.wantHeartBeat w :: res.1, res.2)
      | none => clientLoop []
    else ([], ExitReason.unknownOpcode b)
termination_by s.length
decreasing_by
  · have := platePacket_deserialize_length h; simp; omega
  · simp
  · have := camera_deserialize_length h; simp; omega
  · simp
  · have := dispatcher_deserialize_length h; simp; omega
  · simp
  · have := wantHeartBeat_deserialize_length h; simp; omega
  · simp

/-- handle_client: sends ClientConnected with the write half, then runs the
read loop. -/
def handle_client (s : List Nat) : List MessageType × ExitReason :=
  (MessageType.clientConnected :: (clientLoop s).1, (clientLoop s).2)

/-!
The dispatch task (run_server in src/server/src/speed.rs).

Its four maps are keyed by peer address (modelled as Nat).  Processing a
Plate event hits a todo bang placeholder, which panics and kills the task;
the step function returns none there, and none propagates through a run.
-/

/-- The four HashMaps owned by run_server.  The sockets map holds the write
half of each connection (modelled as presence); heartbeats holds the
spawned heartbeat task handle (modelled as presence). -/
structure ServerState where
  cameras : Nat → Option Camera
  dispatchers : Nat → Option Dispatcher
  sockets : Nat → Bool
  heartbeats : Nat → Bool

/-- State of run_server before any event: four empty maps. -/
def initialServerState : ServerState :=
  ⟨fun _ => none, fun _ => none, fun _ => false, fun _ => false⟩

/-- One iteration of run_server's receive loop on an address-tagged event.
Returns none when the iteration panics (the Plate arm). -/
def run_server_step (st : ServerState) (m : Nat × MessageType) :
    Option ServerState :=
  match m.2 with
  | MessageType.clientConnected =>
    some { st with sockets := fun a => if a = m.1 then true else st.sockets a }
  | MessageType.clientDisconnected =>
    some { st with
      sockets := fun a => if a = m.1 then false else st.sockets a
      cameras := fun a => if a = m.1 then none else st.cameras a
      dispatchers := fun a => if a = m.1 then none else st.dispatchers a }
  | MessageType.iAmDispatcher d =>
    some { st with
      dispatchers := fun a => if a = m.1 then some d else st.dispatchers a }
  | MessageType.iAmCamera c =>
    some { st with
      cameras := fun a => if a = m.1 then some c else st.cameras a }
  | MessageType.plate _ => none
  | MessageType.wantHeartBeat _ =>
    if st.sockets m.1 then
      some { st with
        heartbeats := fun a => if a = m.1 then true else st.heartbeats a }
    else some st

/-- run_server over a list of address-tagged events; none once any
iteration panics. -/
def run_server (st : ServerState) : List (Nat × MessageType) → Option ServerState
  | [] => some st
  | m :: ms =>
    match run_server_step st m with
    | some st2 => run_server st2 ms
    | none => none

/-!
The Dispatch Core.  The Plate arm of run_server is a todo bang placeholder
and handle_heartbeat has an empty body, so the ticketing, dedup, pending
queue and delivery logic that sections 3, 4.3 and 4.4 of the specification
describe is not present in the source; the definitions below are modelled
from the specification text and marked as such.
-/

/-- Modelled from the spec: speed = round(dist / (ts2 − ts1) × 3600 × 100)
in hundredths of mph, for the chronologically ordered pair (t1 < t2); the
rounding convention (left open by the spec) is round to nearest, computed
over naturals as floor((2·dist·360000 + dt) / (2·dt)). -/
def ticketSpeed (m1 t1 m2 t2 : Nat) : Nat :=
  (2 * ((max m1 m2 - min m1 m2) * 360000) + (t2 - t1)) / (2 * (t2 - t1))

/-- A ticket, with the field names of TicketPacket in the source; the plate
is kept abstract as a string. -/
structure Ticket where
  plate : String
  road : Nat
  mile1 : Nat
  timestamp1 : Nat
  mile2 : Nat
  timestamp2 : Nat
  speed : Nat
deriving DecidableEq

/-- Modelled from the spec: a ticket built from two observations of a plate
on a road orders them chronologically regardless of arrival order, with
(mile1, ts1) the earlier one. -/
def mkTicket (p : String) (road m1 t1 m2 t2 : Nat) : Ticket :=
  if t1 ≤ t2 then ⟨p, road, m1, t1, m2, t2, ticketSpeed m1 t1 m2 t2⟩
  else ⟨p, road, m2, t2, m1, t1, ticketSpeed m2 t2 m1 t1⟩

/-- Modelled from the spec: calendar-day = floor(timestamp / 86400). -/
def dayOf (ts : Nat) : Nat := ts / 86400

/-- Modelled from the spec: the calendar days a ticket spans, from the day
of ts1 to the day of ts2 inclusive. -/
def dedupDays (t : Ticket) : List Nat :=
  List.range' (dayOf t.timestamp1) (dayOf t.timestamp2 - dayOf t.timestamp1 + 1)

/-- Modelled from the spec: one recorded sighting in the per-road history. -/
structure Sighting where
  road : Nat
  plate : String
  mile : Nat
  ts : Nat
deriving DecidableEq

/-- Modelled from the spec: the cross-connection state owned by the
Dispatch Core: camera registry, sighting history, ticket ledger, dispatcher
registry, pending-ticket queues, plus the log of delivered tickets and the
log of tickets that passed the dedup check (issued). -/
structure CoreState where
  cams : Nat → Option Camera
  hist : List Sighting
  ledger : List (String × Nat)
  issued : List Ticket
  disp : List (Nat × List Nat)
  pending : Nat → List Ticket
  delivered : List (Nat × Ticket)

/-- Modelled from the spec: the events the Dispatch Core consumes. -/
inductive CoreEvent where
  | camera (conn : Nat) (c : Camera)
  | plate (conn : Nat) (p : String) (ts : Nat)
  | dispatcher (conn : Nat) (roads : List Nat)
  | disconnect (conn : Nat)

/-- Modelled from the spec: the dispatchers currently registered for a
road, in registration order. -/
def eligibleDisp (disp : List (Nat × List Nat)) (road : Nat) : List Nat :=
  (disp.filter (fun e => e.2.contains road)).map Prod.fst

/-- Modelled from the spec: deliver a ticket to the registered dispatcher
with the lowest connection identity, or append it to that road's FIFO
pending queue when no dispatcher is registered for the road. -/
def routeTicket (s : CoreState) (t : Ticket) : CoreState :=
  match (eligibleDisp s.disp t.road).min? with
  | some c => { s with delivered := s.delivered ++ [(c, t)] }
  | none =>
    { s with
      pending := fun r => if r = t.road then s.pending r ++ [t] else s.pending r }

/-- Modelled from the spec: a candidate is blocked when any calendar day it
spans is already marked for its plate in the ledger. -/
def ledgerBlocks (ledger : List (String × Nat)) (t : Ticket) : Bool :=
  (dedupDays t).any (fun d => decide ((t.plate, d) ∈ ledger))

/-- Modelled from the spec: a blocked candidate is discarded; otherwise
every day it spans is marked, it is recorded as issued, and it is routed
to a dispatcher or to the pending queue. -/
def applyCandidate (s : CoreState) (t : Ticket) : CoreState :=
  if ledgerBlocks s.ledger t then s
  else
    routeTicket
      { s with
        ledger := s.ledger ++ (dedupDays t).map (fun d => (t.plate, d))
        issued := s.issued ++ [t] } t

/-- Modelled from the spec: the candidate tickets a new sighting (from a
camera at cam.mile, at time ts) forms against every prior sighting of the
same plate on the same road, keeping those whose pairwise average speed
exceeds the road limit by more than 0.5 mph (speed in hundredths of mph
strictly above limit·100 + 50). -/
def plateCandidates (s : CoreState) (cam : Camera) (p : String) (ts : Nat) :
    List Ticket :=
  (s.hist.filter (fun x => x.road == cam.road && x.plate == p)).filterMap
    (fun x =>
      if cam.limit * 100 + 50 < (mkTicket p cam.road x.mile x.ts cam.mile ts).speed
      then some (mkTicket p cam.road x.mile x.ts cam.mile ts) else none)

/-- Modelled from the spec: On Plate(conn, plate, ts): resolve the
connection's camera, append the sighting to the history, and evaluate each
candidate pairing independently under the dedup rule. -/
def processPlate (s : CoreState) (conn : Nat) (p : String) (ts : Nat) :
    CoreState :=
  match s.cams conn with
  | none => s
  | some cam =>
    (plateCandidates s cam p ts).foldl applyCandidate
      { s with hist := s.hist ++ [⟨cam.road, p, cam.mile, ts⟩] }

/-- Modelled from the spec: drain the pending queue of every listed road,
delivering its tickets in FIFO order to the newly registered dispatcher. -/
def drainRoads (conn : Nat) (roads : List Nat) (s : CoreState) : CoreState :=
  match roads with
  | [] => s
  | r :: rest =>
    drainRoads conn rest
      { s with
        delivered := s.delivered ++ (s.pending r).map (fun t => (conn, t))
        pending := fun r2 => if r2 = r then [] else s.pending r2 }

/-- Modelled from the spec: one Dispatch Core transition. -/
def coreStep (s : CoreState) (e : CoreEvent) : CoreState :=
  match e with
  | CoreEvent.camera conn c =>
    { s with cams := fun a => if a = conn then some c else s.cams a }
  | CoreEvent.plate conn p ts => processPlate s conn p ts
  | CoreEvent.dispatcher conn roads =>
    drainRoads conn roads { s with disp := s.disp ++ [(conn, roads)] }
  | CoreEvent.disconnect conn =>
    { s with
      cams := fun a => if a = conn then none else s.cams a
      disp := s.disp.filter (fun e => e.1 != conn) }

/-- Modelled from the spec: the Dispatch Core starts with no state. -/
def coreInit : CoreState :=
  ⟨fun _ => none, [], [], [], [], fun _ => [], []⟩

/-- Modelled from the spec: the Dispatch Core processes its inbound events
one at a time, in order. -/
def coreRun (evs : List CoreEvent) : CoreState :=
  evs.foldl coreStep coreInit

/-- Modelled from the spec: the Heartbeat Scheduler armed at decisecond 0
with interval (in deciseconds), on a connection torn down at decisecond T:
the deciseconds at which a Heartbeat frame is put on the outbound queue.
No emission happens at or after teardown. -/
def hbFrom (interval T t : Nat) : List Nat :=
  if h : 0 < interval ∧ t + interval < T then
    (t + interval) :: hbFrom interval T (t + interval)
  else []
termination_by T - t
decreasing_by omega

/-- Modelled from the spec: all heartbeat emission times for a connection
whose scheduler is armed at time 0 and torn down at time T. -/
def hbEmissions (interval T : Nat) : List Nat := hbFrom interval T 0

theorem clientLoop_nil :
    clientLoop [] = ([MessageType.clientDisconnected], ExitReason.eof) := by
  simp [clientLoop]

theorem clientLoop_plate_some {t r : List Nat} {p : PlatePacket}
    (hd : PlatePacket.deserialize t = some (p, r)) :
    clientLoop (0x20 :: t) =
      (MessageType.plate p :: (clientLoop r).1, (clientLoop r).2) := by
  conv_lhs => unfold clientLoop
  simp only [if_pos]
  split
  next p2 r2 heq =>
    rw [hd] at heq
    injection heq with h2
    injection h2 with h3 h4
    subst h3; subst h4; rfl
  next heq => rw [hd] at heq; cases heq

theorem clientLoop_plate_none {t : List Nat}
    (hd : PlatePacket.deserialize t = none) :
    clientLoop (0x20 :: t) = ([MessageType.clientDisconnected], ExitReason.eof) := by
  conv_lhs => unfold clientLoop
  simp only [if_pos]
  split
  next p2 r2 heq => rw [hd] at heq; cases heq
  next heq => exact clientLoop_nil

theorem clientLoop_camera_some {t r : List Nat} {c : Camera}
    (hd : Camera.deserialize t = some (c, r)) :
    clientLoop (0x80 :: t) =
      (MessageType.iAmCamera c :: (clientLoop r).1, (clientLoop r).2) := by
  conv_lhs => unfold clientLoop
  rw [if_neg (by decide), if_pos rfl]
  split
  next c2 r2 heq =>
    rw [hd] at heq
    injection heq with h2
    injection h2 with h3 h4
    subst h3; subst h4; rfl
  next heq => rw [hd] at heq; cases heq

theorem clientLoop_camera_none {t : List Nat}
    (hd : Camera.deserialize t = none) :
    clientLoop (0x80 :: t) = ([MessageType.clientDisconnected], ExitReason.eof) := by
  conv_lhs => unfold clientLoop
  rw [if_neg (by decide), if_pos rfl]
  split
  next c2 r2 heq => rw [hd] at heq; cases heq
  next heq => exact clientLoop_nil

theorem clientLoop_dispatcher_some {t r : List Nat} {d : Dispatcher}
    (hd : Dispatcher.deserialize t = some (d, r)) :
    clientLoop (0x81 :: t) =
      (MessageType.iAmDispatcher d :: (clientLoop r).1, (clientLoop r).2) := by
  conv_lhs => unfold clientLoop
  rw [if_neg (by decide), if_neg (by decide), if_pos rfl]
  split
  next d2 r2 heq =>
    rw [hd] at heq
    injection heq with h2
    injection h2 with h3 h4
    subst h3; subst h4; rfl
  next heq => rw [hd] at heq; cases heq

theorem clientLoop_dispatcher_none {t : List Nat}
    (hd : Dispatcher.deserialize t = none) :
    clientLoop (0x81 :: t) = ([MessageType.clientDisconnected], ExitReason.eof) := by
  conv_lhs => unfold clientLoop
  rw [if_neg (by decide), if_neg (by decide), if_pos rfl]
  split
  next d2 r2 heq => rw [hd] at heq; cases heq
  next heq => exact clientLoop_nil

theorem clientLoop_whb_some {t r : List Nat} {w : WantHeartBeatPacket}
    (hd : WantHeartBeatPacket.deserialize t = some (w, r)) :
    clientLoop (0x40 :: t) =
      (MessageType.wantHeartBeat w :: (clientLoop r).1, (clientLoop r).2) := by
  conv_lhs => unfold clientLoop
  rw [if_neg (by decide), if_neg (by decide), if_neg (by decide), if_pos rfl]
  split
  next w2 r2 heq =>
    rw [hd] at heq
    injection heq with h2
    injection h2 with h3 h4
    subst h3; subst h4; rfl
  next heq => rw [hd] at heq; cases heq

theorem clientLoop_whb_none {t : List Nat}
    (hd : WantHeartBeatPacket.deserialize t = none) :
    clientLoop (0x40 :: t) = ([MessageType.clientDisconnected], ExitReason.eof) := by
  conv_lhs => unfold clientLoop
  rw [if_neg (by decide), if_neg (by decide), if_neg (by decide), if_pos rfl]
  split
  next w2 r2 heq => rw [hd] at heq; cases heq
  next heq => exact clientLoop_nil

theorem clientLoop_unknown {b : Nat} {t : List Nat} (h1 : b ≠ 0x20)
    (h2 : b ≠ 0x80) (h3 : b ≠ 0x81) (h4 : b ≠ 0x40) :
    clientLoop (b :: t) = ([], ExitReason.unknownOpcode b) := by
  conv_lhs => unfold clientLoop
  rw [if_neg h1, if_neg h2, if_neg h3, if_neg h4]

/-- A ClientDisconnected event is emitted only when the loop stops because
the opcode read itself failed (end of stream), never on an unknown opcode. -/
theorem clientLoop_disconnected_eof (s : List Nat)
    (h : MessageType.clientDisconnected ∈ (clientLoop s).1) :
    (clientLoop s).2 = ExitReason.eof := by
  induction s using clientLoop.induct with
  | case1 => rw [clientLoop_nil]
  | case2 t p r hd ih =>
    rw [clientLoop_plate_some hd] at h ⊢
    simp at h ⊢
    exact ih h
  | case3 t hd ih => rw [clientLoop_plate_none hd]
  | case4 t c r hd hb ih =>
    rw [clientLoop_camera_some hd] at h ⊢
    simp at h ⊢
    exact ih h
  | case5 t hd hb ih => rw [clientLoop_camera_none hd]
  | case6 t d r hd hb1 hb2 ih =>
    rw [clientLoop_dispatcher_some hd] at h ⊢
    simp at h ⊢
    exact ih h
  | case7 t hd hb1 hb2 ih => rw [clientLoop_dispatcher_none hd]
  | case8 t w r hd hb1 hb2 hb3 ih =>
    rw [clientLoop_whb_some hd] at h ⊢
    simp at h ⊢
    exact ih h
  | case9 t hd hb1 hb2 hb3 ih => rw [clientLoop_whb_none hd]
  | case10 b t hb1 hb2 hb3 hb4 =>
    rw [clientLoop_unknown hb1 hb2 hb3 hb4] at h
    simp at h

/-- One run_server iteration on an event from a different address leaves
the maps unchanged at this address. -/
theorem run_server_step_other {st st' : ServerState} {m : Nat × MessageType}
    {addr : Nat} (hne : m.1 ≠ addr) (h : run_server_step st m = some st') :
    st'.cameras addr = st.cameras addr ∧
    st'.dispatchers addr = st.dispatchers addr ∧
    st'.sockets addr = st.sockets addr := by
  have hne' : addr ≠ m.1 := fun hc => hne hc.symm
  unfold run_server_step at h
  rcases m with ⟨a, msg⟩
  cases msg with
  | clientConnected =>
    injection h with h2
    subst h2
    simp [if_neg hne']
  | clientDisconnected =>
    injection h with h2
    subst h2
    simp [if_neg hne']
  | plate p => cases h
  | wantHeartBeat w =>
    simp only at h
    by_cases hs : st.sockets a
    · rw [if_pos hs] at h
      injection h with h2
      subst h2
      simp
    · rw [if_neg hs] at h
      injection h with h2
      subst h2
      exact ⟨rfl, rfl, rfl⟩
  | iAmCamera c =>
    injection h with h2
    subst h2
    simp [if_neg hne']
  | iAmDispatcher d =>
    injection h with h2
    subst h2
    simp [if_neg hne']

/-- run_server over events none of which comes from this address leaves
the maps unchanged at this address. -/
theorem run_server_other (addr : Nat) (evts : List (Nat × MessageType)) :
    ∀ st st', (∀ e ∈ evts, e.1 ≠ addr) → run_server st evts = some st' →
      st'.cameras addr = st.cameras addr ∧
      st'.dispatchers addr = st.dispatchers addr ∧
      st'.sockets addr = st.sockets addr := by
  induction evts with
  | nil =>
    intro st st' _ h
    injection h with h2
    subst h2
    exact ⟨rfl, rfl, rfl⟩
  | cons m rest ih =>
    intro st st' hne h
    unfold run_server at h
    cases hs : run_server_step st m with
    | none => rw [hs] at h; cases h
    | some st2 =>
      rw [hs] at h
      have h1 := run_server_step_other (hne m (by simp)) hs
      have h2 := ih st2 st' (fun e he => hne e (by simp [he])) h
      exact ⟨h2.1.trans h1.1, h2.2.1.trans h1.2.1, h2.2.2.trans h1.2.2⟩

/-- Claim C10: a read loop that stops on an unrecognized opcode emits no
ClientDisconnected event (one is emitted only when the opcode read itself
fails), and run_server, seeing no further event from that address, keeps
the address's entries in its cameras, dispatchers and sockets maps. -/
theorem C10_no_disconnect_on_unknown_opcode (bytes : List Nat) (b : Nat)
    (st st' : ServerState) (evts : List (Nat × MessageType)) (addr : Nat) :
    ((clientLoop bytes).2 = ExitReason.unknownOpcode b →
      MessageType.clientDisconnected ∉ (clientLoop bytes).1) ∧
    (MessageType.clientDisconnected ∈ (clientLoop bytes).1 →
      (clientLoop bytes).2 = ExitReason.eof) ∧
    ((∀ e ∈ evts, e.1 ≠ addr) → run_server st evts = some st' →
      st'.cameras addr = st.cameras addr ∧
      st'.dispatchers addr = st.dispatchers addr ∧
      st'.sockets addr = st.sockets addr) := by
  refine ⟨?_, clientLoop_disconnected_eof bytes, run_server_other addr evts st st'⟩
  intro hexit hmem
  have := clientLoop_disconnected_eof bytes hmem
  rw [hexit] at this
  cases this

/-- Claim C10 witness: the single unrecognized byte 0x00 exits the loop
with no ClientDisconnected event. -/
theorem C10_no_disconnect_on_unknown_opcode_witness :
    MessageType.clientDisconnected ∉ (clientLoop [0]).1 := by
  refine (C10_no_disconnect_on_unknown_opcode [0] 0 initialServerState
    initialServerState [] 0).1 ?_
  rw [clientLoop_unknown (by decide) (by decide) (by decide) (by decide)]

/-- Claim C9: every Plate event processed by run_server reaches the todo
bang placeholder and panics, terminating the dispatch task, regardless of
the state (in particular of whether the sender is registered as a camera)
and of the surrounding events. -/
theorem C9_plate_event_panics (st : ServerState) (addr : Nat) (p : PlatePacket)
    (pre post : List (Nat × MessageType)) :
    run_server_step st (addr, MessageType.plate p) = none ∧
    run_server st (pre ++ (addr, MessageType.plate p) :: post) = none := by
  refine ⟨rfl, ?_⟩
  induction pre generalizing st with
  | nil => simp [run_server, run_server_step]
  | cons m rest ih =>
    cases h : run_server_step st m with
    | some st2 => simpa [run_server, h] using ih st2
    | none => simp [run_server, h]

/-- Claim C5 (code_bug evidence): the connection actor enforces no role
rules: a Plate from a connection never registered as a camera and a second
IAmCamera on the same connection are all forwarded to the dispatch task,
and a second WantHeartbeat is forwarded as well; no Error frame is sent
(handle_client owns no write path at all) and the loop keeps reading. -/
theorem C5_violations_forwarded :
    handle_client
        ([0x20, 3, 65, 66, 67, 0, 0, 0, 0] ++ [0x80, 0, 5, 0, 0, 0, 60] ++
          [0x80, 0, 5, 0, 0, 0, 60] ++ [0x40, 0, 0, 0, 10] ++ [0x40, 0, 0, 0, 10]) =
      ([MessageType.clientConnected, MessageType.plate ⟨[65, 66, 67], 0⟩,
        MessageType.iAmCamera ⟨5, 0, 60⟩, MessageType.iAmCamera ⟨5, 0, 60⟩,
        MessageType.wantHeartBeat ⟨10⟩, MessageType.wantHeartBeat ⟨10⟩,
        MessageType.clientDisconnected], ExitReason.eof) := by
  simp [handle_client, clientLoop, PlatePacket.deserialize, Camera.deserialize,
    WantHeartBeatPacket.deserialize, readStr, readInt, readVec, readN, beVal]

/-- Claim C6 (code_bug evidence): on an unrecognized opcode byte the read
loop just breaks: no Error frame is sent (the actor has no write path), no
ClientDisconnected event is emitted, the remaining bytes are dropped, and
feeding the emitted events to run_server leaves the write half registered
in the sockets map, so the connection is not closed. -/
theorem C6_unknown_opcode_silent :
    handle_client [0x00, 0x20, 3, 65] =
      ([MessageType.clientConnected], ExitReason.unknownOpcode 0) ∧
    ∃ st, run_server initialServerState
        ((handle_client [0x00, 0x20, 3, 65]).1.map (fun m => (1, m))) = some st ∧
      st.sockets 1 = true := by
  have h1 : handle_client [0x00, 0x20, 3, 65] =
      ([MessageType.clientConnected], ExitReason.unknownOpcode 0) := by
    simp [handle_client, clientLoop]
  refine ⟨h1, ?_⟩
  rw [h1]
  exact ⟨_, rfl, rfl⟩

/-- Claim C8 (counterexample): deserializing the IAmDispatcher frame body
numroads = 1 followed by the single big-endian u16 road 0x0005 does not
read one road: the byte 0x00 is consumed as a second, separate count for
the Vec field, so zero roads are read, one byte is left over, and the
number of roads read differs from the numroads field. -/
theorem C8_counterexample :
    Dispatcher.deserialize [1, 0, 5] = some (⟨1, []⟩, [5]) ∧
    ((⟨1, []⟩ : Dispatcher).roads.length ≠ (⟨1, []⟩ : Dispatcher).numroads) := by
  exact ⟨by decide, by decide⟩

/-- Claim C8 (amended): decoding an IAmDispatcher frame body consumes one
numroads byte and then a separate count byte; that second byte alone
determines how many big-endian u16 road ids are read, so the body is
2 + 2·count bytes long and the numroads field does not size the array. -/
theorem C8_amended_separate_count (n count : Nat) (payload tail : List Nat)
    (h : payload.length = 2 * count) :
    Dispatcher.deserialize (n :: count :: (payload ++ tail)) =
      some (⟨n, (List.range count).map
        (fun i => beVal ((payload.drop (i * 2)).take 2))⟩, tail) := by
  have hlen : count * 2 ≤ (payload ++ tail).length := by
    simp [List.length_append, h]; omega
  have htake : (payload ++ tail).take (count * 2) = payload :=
    List.take_left' (by omega)
  have hdrop : (payload ++ tail).drop (count * 2) = tail :=
    List.drop_left' (by omega)
  simp [Dispatcher.deserialize, readInt, readVec, readN, beVal, hlen,
    htake, hdrop]
  rw [if_pos (show count * 2 ≤ payload.length + tail.length by omega)]

/-- Claim C8 (witness for the amended statement): a frame body with
numroads byte 2 and count byte 1 reads exactly one road. -/
theorem C8_amended_separate_count_witness :
    Dispatcher.deserialize [2, 1, 0, 5, 9] = some (⟨2, [5]⟩, [9]) := by
  have h := C8_amended_separate_count 2 1 [0, 5] [9] (by decide)
  exact h.trans (by decide)

/-- Natural-number rounding: for positive b, (2a + b) / (2b) in natural
division is round(a / b) to the nearest integer. -/
theorem natRound_eq_round (a b : Nat) (hb : 0 < b) :
    (((2 * a + b) / (2 * b) : ℕ) : ℤ) = round ((a : ℚ) / (b : ℚ)) := by
  have hbq : (b : ℚ) ≠ 0 := Nat.cast_ne_zero.mpr hb.ne'
  rw [round_eq]
  have hx : (a : ℚ) / b + 1 / 2 = ((2 * a + b : ℕ) : ℚ) / ((2 * b : ℕ) : ℚ) := by
    push_cast
    field_simp
    ring
  have hfl : ((2 * a + b) / (2 * b) : ℕ) =
      ⌊((2 * a + b : ℕ) : ℚ) / ((2 * b : ℕ) : ℚ)⌋₊ :=
    (Nat.floor_div_eq_div (2 * a + b) (2 * b)).symm
  rw [hx, hfl]
  exact Int.natCast_floor_eq_floor (by positivity)

/-- Claim C1: for ts1 < ts2 the ticket built from the pair is the same in
either arrival order, carries the chronologically earlier observation as
(mile1, ts1), and its speed field is round(dist / (ts2 − ts1) × 3600 × 100)
in hundredths of mph. -/
theorem C1_speed_formula (p : String) (road m1 t1 m2 t2 : Nat) (h : t1 < t2) :
    mkTicket p road m1 t1 m2 t2 = mkTicket p road m2 t2 m1 t1 ∧
    mkTicket p road m1 t1 m2 t2 =
      ⟨p, road, m1, t1, m2, t2, ticketSpeed m1 t1 m2 t2⟩ ∧
    ((ticketSpeed m1 t1 m2 t2 : ℤ) =
      round ((((max m1 m2 - min m1 m2 : ℕ) : ℚ) / ((t2 - t1 : ℕ) : ℚ)) * 3600 * 100)) := by
  have hle : t1 ≤ t2 := le_of_lt h
  have hnle : ¬ t2 ≤ t1 := not_le.mpr h
  refine ⟨?_, ?_, ?_⟩
  · unfold mkTicket
    rw [if_pos hle, if_neg hnle]
  · unfold mkTicket
    rw [if_pos hle]
  · unfold ticketSpeed
    have hdt : 0 < t2 - t1 := by omega
    rw [natRound_eq_round ((max m1 m2 - min m1 m2) * 360000) (t2 - t1) hdt]
    congr 1
    have hdq : ((t2 - t1 : ℕ) : ℚ) ≠ 0 := Nat.cast_ne_zero.mpr hdt.ne'
    push_cast
    field_simp
    ring

/-- Claim C1 witness: the worked pair mile 0 at ts 0 and mile 1 at ts 50. -/
theorem C1_speed_formula_witness :
    mkTicket "ABC" 5 0 0 1 50 = ⟨"ABC", 5, 0, 0, 1, 50, ticketSpeed 0 0 1 50⟩ ∧
    ((ticketSpeed 0 0 1 50 : ℤ) =
      round ((((max 0 1 - min 0 1 : ℕ) : ℚ) / ((50 - 0 : ℕ) : ℚ)) * 3600 * 100)) := by
  have h := C1_speed_formula "ABC" 5 0 0 1 50 (by decide)
  exact ⟨h.2.1, h.2.2⟩

/-- Claim C2: a candidate ticket is built from a prior sighting of the same
plate on the same road exactly when the pairwise average speed exceeds the
road limit by more than 0.5 mph (strictly above limit·100 + 50 in
hundredths); in the worked example, the pair 60 seconds apart (60.00 mph on
a limit-60 road) yields no ticket while 50 seconds apart it yields the
ticket with speed 7200. -/
theorem C2_ticket_iff_threshold (s : CoreState) (cam : Camera) (p : String)
    (ts : Nat) (t : Ticket) (x : Sighting) (ht : t ∈ plateCandidates s cam p ts)
    (hx : x ∈ s.hist) (hroad : x.road = cam.road) (hplate : x.plate = p)
    (hsp : cam.limit * 100 + 50 < (mkTicket p cam.road x.mile x.ts cam.mile ts).speed) :
    cam.limit * 100 + 50 < t.speed ∧
    mkTicket p cam.road x.mile x.ts cam.mile ts ∈ plateCandidates s cam p ts ∧
    (coreRun [CoreEvent.camera 1 ⟨5, 0, 60⟩, CoreEvent.camera 2 ⟨5, 1, 60⟩,
      CoreEvent.plate 1 "ABC" 0, CoreEvent.plate 2 "ABC" 60]).issued = [] ∧
    (coreRun [CoreEvent.camera 1 ⟨5, 0, 60⟩, CoreEvent.camera 2 ⟨5, 1, 60⟩,
      CoreEvent.plate 1 "ABC" 0, CoreEvent.plate 2 "ABC" 50]).issued =
      [⟨"ABC", 5, 0, 0, 1, 50, 7200⟩] := by
  refine ⟨?_, ?_, by decide, by decide⟩
  · unfold plateCandidates at ht
    rw [List.mem_filterMap] at ht
    obtain ⟨y, hy, heq⟩ := ht
    by_cases hc :
        cam.limit * 100 + 50 < (mkTicket p cam.road y.mile y.ts cam.mile ts).speed
    · rw [if_pos hc] at heq
      injection heq with h2
      rw [← h2]
      exact hc
    · rw [if_neg hc] at heq
      cases heq
  · unfold plateCandidates
    rw [List.mem_filterMap]
    refine ⟨x, ?_, if_pos hsp⟩
    rw [List.mem_filter]
    refine ⟨hx, ?_⟩
    simp [hroad, hplate]

/-- Claim C2 witness: the 50-second pair on a limit-60 road exceeds the
threshold and is built as a candidate. -/
theorem C2_ticket_iff_threshold_witness :
    60 * 100 + 50 < (mkTicket "ABC" 5 0 0 1 50).speed ∧
    mkTicket "ABC" 5 0 0 1 50 ∈
      plateCandidates ⟨fun _ => none, [⟨5, "ABC", 0, 0⟩], [], [], [], fun _ => [], []⟩
        ⟨5, 1, 60⟩ "ABC" 50 := by
  have h := C2_ticket_iff_threshold
    ⟨fun _ => none, [⟨5, "ABC", 0, 0⟩], [], [], [], fun _ => [], []⟩
    ⟨5, 1, 60⟩ "ABC" 50 (mkTicket "ABC" 5 0 0 1 50) ⟨5, "ABC", 0, 0⟩
    (by decide) (by decide) rfl rfl (by decide)
  exact ⟨h.1, h.2.1⟩

theorem hbFrom_pos {interval T t : Nat} (hcond : 0 < interval ∧ t + interval < T) :
    hbFrom interval T t = (t + interval) :: hbFrom interval T (t + interval) := by
  conv_lhs => unfold hbFrom
  exact dif_pos hcond

theorem hbFrom_neg {interval T t : Nat}
    (hcond : ¬(0 < interval ∧ t + interval < T)) :
    hbFrom interval T t = [] := by
  conv_lhs => unfold hbFrom
  exact dif_neg hcond

/-- Characterization of the scheduler: from arming time t it emits exactly
at the times t + k·interval (k ≥ 1) below the teardown time. -/
theorem hbFrom_mem (interval T t x : Nat) :
    x ∈ hbFrom interval T t ↔
      0 < interval ∧ t < x ∧ x < T ∧ interval ∣ (x - t) := by
  induction t using hbFrom.induct interval T with
  | case1 t hcond ih =>
    rw [hbFrom_pos hcond, List.mem_cons, ih]
    constructor
    · rintro (rfl | ⟨hi, hlt, hxT, hdvd⟩)
      · exact ⟨hcond.1, by omega, hcond.2, ⟨1, by omega⟩⟩
      · refine ⟨hi, by omega, hxT, ?_⟩
        have hxe : x - t = (x - (t + interval)) + interval := by omega
        rw [hxe]
        exact Nat.dvd_add hdvd dvd_rfl
    · rintro ⟨hi, htx, hxT, k, hk⟩
      rcases k with _ | _ | k
      · simp at hk; omega
      · left; simp at hk; omega
      · right
        have hre : interval * (k + 1 + 1) = interval * k + interval + interval := by
          ring
        rw [hre] at hk
        refine ⟨hi, by omega, hxT, ⟨k + 1, ?_⟩⟩
        have hre2 : interval * (k + 1) = interval * k + interval := by ring
        rw [hre2]
        omega
  | case2 t hcond =>
    rw [hbFrom_neg hcond]
    simp only [List.not_mem_nil, false_iff]
    rintro ⟨hi, htx, hxT, k, hk⟩
    rcases k with _ | k
    · simp at hk; omega
    · have hle : interval ≤ interval * (k + 1) :=
        Nat.le_mul_of_pos_right interval (Nat.succ_pos k)
      omega

/-- Claim C7: interval 0 never emits a Heartbeat; a positive interval emits
exactly at every multiple of the interval (in deciseconds, i.e. every
interval/10 seconds) from arming until teardown at T, and never at or after
teardown. -/
theorem C7_heartbeat_schedule (interval T x : Nat) :
    hbEmissions 0 T = [] ∧
    (0 < interval →
      (x ∈ hbEmissions interval T ↔ interval ∣ x ∧ 0 < x ∧ x < T)) ∧
    (T ≤ x → x ∉ hbEmissions interval T) := by
  refine ⟨?_, ?_, ?_⟩
  · exact hbFrom_neg (by simp)
  · intro hi
    unfold hbEmissions
    rw [hbFrom_mem]
    simp only [Nat.sub_zero]
    constructor
    · rintro ⟨h1, h2, h3, h4⟩
      exact ⟨h4, h2, h3⟩
    · rintro ⟨h1, h2, h3⟩
      exact ⟨hi, h2, h3, h1⟩
  · intro hT hx
    unfold hbEmissions at hx
    rw [hbFrom_mem] at hx
    exact absurd hx.2.2.1 (not_lt.mpr hT)

/-- Claim C7 witness: with interval 2 armed at 0 and teardown at 7, an
emission happens at time 4. -/
theorem C7_heartbeat_schedule_witness : (4 : Nat) ∈ hbEmissions 2 7 :=
  ((C7_heartbeat_schedule 2 7 4).2.1 (by decide)).mpr (by decide)

theorem flatMap_congr_mem {α β : Type} (l : List α) (f g : α → List β)
    (h : ∀ x ∈ l, f x = g x) : l.flatMap f = l.flatMap g := by
  induction l with
  | nil => rfl
  | cons a l ih =>
    simp only [List.flatMap_cons]
    rw [h a (by simp), ih (fun x hx => h x (by simp [hx]))]

theorem drainRoads_pending (conn : Nat) (roads : List Nat) :
    ∀ (s : CoreState) (x : Nat),
      (drainRoads conn roads s).pending x =
        if x ∈ roads then [] else s.pending x := by
  induction roads with
  | nil => intro s x; simp [drainRoads]
  | cons r rest ih =>
    intro s x
    simp only [drainRoads]
    rw [ih]
    by_cases h1 : x = r
    · subst h1
      by_cases h2 : x ∈ rest <;> simp [h2]
    · by_cases h2 : x ∈ rest <;> simp [h1, h2]

theorem drainRoads_delivered (conn : Nat) (roads : List Nat) :
    ∀ (s : CoreState), roads.Nodup →
      (drainRoads conn roads s).delivered =
        s.delivered ++
          roads.flatMap (fun r => (s.pending r).map (fun t => (conn, t))) := by
  induction roads with
  | nil => intro s _; simp [drainRoads]
  | cons r rest ih =>
    intro s hnd
    rw [List.nodup_cons] at hnd
    simp only [drainRoads, List.flatMap_cons]
    rw [ih _ hnd.2]
    rw [flatMap_congr_mem rest
      (fun r2 => ((if r2 = r then [] else s.pending r2) : List Ticket).map
        (fun t => (conn, t)))
      (fun r2 => (s.pending r2).map (fun t => (conn, t)))
      (fun x hx => by
        have hne : x ≠ r := fun hc => hnd.1 (hc ▸ hx)
        simp [hne])]
    simp [List.append_assoc]

/-- Claim C4: a ticket issued for a road with no registered dispatcher is
appended to that road's FIFO pending queue (leaving deliveries untouched),
and on an IAmDispatcher event listing a set of roads the pending queue of
every listed road is drained: all its tickets are delivered to that
dispatcher exactly once, in FIFO order, and the queue is left empty. -/
theorem C4_pending_queue_fifo (s : CoreState) (conn : Nat) (roads : List Nat)
    (t : Ticket) (hnd : roads.Nodup) :
    (eligibleDisp s.disp t.road = [] →
      (routeTicket s t).pending t.road = s.pending t.road ++ [t] ∧
      (routeTicket s t).delivered = s.delivered) ∧
    (coreStep s (CoreEvent.dispatcher conn roads)).delivered =
      s.delivered ++
        roads.flatMap (fun r => (s.pending r).map (fun tk => (conn, tk))) ∧
    (∀ r ∈ roads, (coreStep s (CoreEvent.dispatcher conn roads)).pending r = []) := by
  refine ⟨?_, ?_, ?_⟩
  · intro he
    unfold routeTicket
    rw [he]
    simp
  · simp only [coreStep]
    rw [drainRoads_delivered conn roads _ hnd]
  · intro r hr
    simp only [coreStep]
    rw [drainRoads_pending]
    simp [hr]

/-- Claim C4 witness: a two-ticket queue on road 5 is delivered whole, in
order, to the dispatcher registering for road 5, and the queue is emptied. -/
theorem C4_pending_queue_fifo_witness :
    (coreStep
        ⟨fun _ => none, [], [], [],  [],
          fun r => if r = 5 then
            [⟨"A", 5, 0, 0, 1, 50, 7200⟩, ⟨"B", 5, 3, 0, 4, 50, 7200⟩] else [], []⟩
        (CoreEvent.dispatcher 7 [5])).delivered =
      [(7, ⟨"A", 5, 0, 0, 1, 50, 7200⟩), (7, ⟨"B", 5, 3, 0, 4, 50, 7200⟩)] ∧
    (coreStep
        ⟨fun _ => none, [], [], [],  [],
          fun r => if r = 5 then
            [⟨"A", 5, 0, 0, 1, 50, 7200⟩, ⟨"B", 5, 3, 0, 4, 50, 7200⟩] else [], []⟩
        (CoreEvent.dispatcher 7 [5])).pending 5 = [] := by
  have h := C4_pending_queue_fifo
    ⟨fun _ => none, [], [], [],  [],
      fun r => if r = 5 then
        [⟨"A", 5, 0, 0, 1, 50, 7200⟩, ⟨"B", 5, 3, 0, 4, 50, 7200⟩] else [], []⟩
    7 [5] ⟨"A", 0, 0, 0, 0, 0, 0⟩ (by decide)
  exact ⟨h.2.1.trans (by decide), h.2.2 5 (by decide)⟩

/-- Two tickets of the same plate span disjoint sets of calendar days. -/
def TicketDayDisjoint (t1 t2 : Ticket) : Prop :=
  t1.plate = t2.plate → ∀ d, d ∈ dedupDays t1 → d ∉ dedupDays t2

instance (t1 t2 : Ticket) : Decidable (TicketDayDisjoint t1 t2) := by
  unfold TicketDayDisjoint
  infer_instance

/-- The dedup invariant: every issued ticket has all its spanned days
marked in the ledger for its plate, and issued tickets of one plate span
pairwise disjoint day sets. -/
def CoreInv (s : CoreState) : Prop :=
  (∀ t ∈ s.issued, ∀ d ∈ dedupDays t, (t.plate, d) ∈ s.ledger) ∧
  s.issued.Pairwise TicketDayDisjoint

theorem routeTicket_ledger (s : CoreState) (t : Ticket) :
    (routeTicket s t).ledger = s.ledger ∧ (routeTicket s t).issued = s.issued := by
  unfold routeTicket
  cases (eligibleDisp s.disp t.road).min? <;> exact ⟨rfl, rfl⟩

theorem applyCandidate_inv {s : CoreState} {t : Ticket} (h : CoreInv s) :
    CoreInv (applyCandidate s t) := by
  unfold applyCandidate
  by_cases hb : ledgerBlocks s.ledger t = true
  · rw [if_pos hb]
    exact h
  · rw [if_neg hb]
    obtain ⟨hled, hiss⟩ := routeTicket_ledger
      { s with
        ledger := s.ledger ++ (dedupDays t).map (fun d => (t.plate, d))
        issued := s.issued ++ [t] } t
    unfold CoreInv
    rw [hled, hiss]
    constructor
    · intro t2 ht2 d hd
      rcases List.mem_append.mp ht2 with h1 | h1
      · exact List.mem_append_left _ (h.1 t2 h1 d hd)
      · rw [List.mem_singleton] at h1
        subst h1
        exact List.mem_append_right _ (List.mem_map.mpr ⟨d, hd, rfl⟩)
    · rw [List.pairwise_append]
      refine ⟨h.2, List.pairwise_singleton _ _, ?_⟩
      intro a ha b hbmem
      rw [List.mem_singleton] at hbmem
      subst hbmem
      intro hplate d hda hdt
      have hmem : (b.plate, d) ∈ s.ledger := by
        rw [← hplate]
        exact h.1 a ha d hda
      apply hb
      unfold ledgerBlocks
      rw [List.any_eq_true]
      exact ⟨d, hdt, by simp [hmem]⟩

theorem foldl_applyCandidate_inv (l : List Ticket) :
    ∀ s : CoreState, CoreInv s → CoreInv (l.foldl applyCandidate s) := by
  induction l with
  | nil => intro s h; exact h
  | cons t l ih => intro s h; exact ih _ (applyCandidate_inv h)

theorem processPlate_inv (s : CoreState) (conn : Nat) (p : String) (ts : Nat)
    (h : CoreInv s) : CoreInv (processPlate s conn p ts) := by
  unfold processPlate
  cases s.cams conn with
  | none => exact h
  | some cam => exact foldl_applyCandidate_inv _ _ h

theorem drainRoads_issued_ledger (conn : Nat) (roads : List Nat) :
    ∀ s : CoreState, (drainRoads conn roads s).issued = s.issued ∧
      (drainRoads conn roads s).ledger = s.ledger := by
  induction roads with
  | nil => intro s; exact ⟨rfl, rfl⟩
  | cons r rest ih =>
    intro s
    simp only [drainRoads]
    exact ih _

theorem coreStep_inv (s : CoreState) (e : CoreEvent) (h : CoreInv s) :
    CoreInv (coreStep s e) := by
  cases e with
  | camera conn c => exact h
  | plate conn p ts => exact processPlate_inv s conn p ts h
  | dispatcher conn roads =>
    have hd := drainRoads_issued_ledger conn roads
      { s with disp := s.disp ++ [(conn, roads)] }
    simp only [coreStep]
    unfold CoreInv
    rw [hd.1, hd.2]
    exact h
  | disconnect conn => exact h

theorem coreRun_inv (evs : List CoreEvent) : CoreInv (coreRun evs) := by
  unfold coreRun
  have hgen : ∀ (l : List CoreEvent) (s : CoreState),
      CoreInv s → CoreInv (l.foldl coreStep s) := by
    intro l
    induction l with
    | nil => intro s h; exact h
    | cons e l ih => intro s h; exact ih _ (coreStep_inv s e h)
  refine hgen evs coreInit ⟨?_, ?_⟩
  · intro t ht
    cases ht
  · exact List.Pairwise.nil

/-- Claim C3: in every reachable Dispatch Core state the issued tickets of
one plate have pairwise disjoint calendar-day spans; a candidate spanning
an already-marked day for its plate is discarded unchanged, and an issued
ticket marks every day it spans in the ledger. -/
theorem C3_no_overlapping_day_spans (evs : List CoreEvent) (s : CoreState)
    (t : Ticket) :
    (coreRun evs).issued.Pairwise TicketDayDisjoint ∧
    (ledgerBlocks s.ledger t = true → applyCandidate s t = s) ∧
    (ledgerBlocks s.ledger t = false →
      (∀ d ∈ dedupDays t, (t.plate, d) ∈ (applyCandidate s t).ledger) ∧
      t ∈ (applyCandidate s t).issued) := by
  refine ⟨(coreRun_inv evs).2, ?_, ?_⟩
  · intro hb
    unfold applyCandidate
    rw [if_pos hb]
  · intro hb
    unfold applyCandidate
    rw [if_neg (by rw [hb]; exact Bool.false_ne_true)]
    obtain ⟨hled, hiss⟩ := routeTicket_ledger
      { s with
        ledger := s.ledger ++ (dedupDays t).map (fun d => (t.plate, d))
        issued := s.issued ++ [t] } t
    constructor
    · intro d hd
      rw [hled]
      exact List.mem_append_right _ (List.mem_map.mpr ⟨d, hd, rfl⟩)
    · rw [hiss]
      exact List.mem_append_right _ (by simp)

/-- Claim C3 witness: a candidate on an already-marked day is discarded,
and the issued list of the worked run is pairwise day-disjoint. -/
theorem C3_no_overlapping_day_spans_witness :
    applyCandidate ⟨fun _ => none, [], [("A", 0)], [], [], fun _ => [], []⟩
        ⟨"A", 1, 0, 0, 0, 0, 9999⟩ =
      ⟨fun _ => none, [], [("A", 0)], [], [], fun _ => [], []⟩ ∧
    (coreRun [CoreEvent.camera 1 ⟨5, 0, 60⟩, CoreEvent.camera 2 ⟨5, 1, 60⟩,
      CoreEvent.plate 1 "ABC" 0,
      CoreEvent.plate 2 "ABC" 50]).issued.Pairwise TicketDayDisjoint := by
  have h := C3_no_overlapping_day_spans
    [CoreEvent.camera 1 ⟨5, 0, 60⟩, CoreEvent.camera 2 ⟨5, 1, 60⟩,
      CoreEvent.plate 1 "ABC" 0, CoreEvent.plate 2 "ABC" 50]
    ⟨fun _ => none, [], [("A", 0)], [], [], fun _ => [], []⟩
    ⟨"A", 1, 0, 0, 0, 0, 9999⟩
  exact ⟨h.2.1 (by decide), h.1⟩
